import Mathlib

/-!
Shallow embedding of the Yelp-outreach Discord bot (`bot.py` and `agent.py`)
and verification of the behavioural properties stated about it.

Python strings are modelled as `String`/`List Char` (Python `len` and slicing
count code points, as `List Char` does).  Python `dict` values keyed by
strings or integers are modelled as insertion-ordered association lists.
Remote calls (the Mistral completion API and the Yelp search API) are
modelled by oracles passed in explicitly, together with an explicit log of
the remote calls a code path performs.
-/

/-- A single-quote character (U+0027), used inside rendered text. -/
def squote : String := String.mk [Char.ofNat 39]

/-- Python `str.strip()` on a char list: drop whitespace from both ends.
(Python strips Unicode whitespace; the inputs of interest use ASCII
whitespace, covered by `Char.isWhitespace`.) -/
def pyStripL (l : List Char) : List Char :=
  ((l.dropWhile Char.isWhitespace).reverse.dropWhile Char.isWhitespace).reverse

/-- Python `str.strip()`. -/
def pyStrip (s : String) : String := String.mk (pyStripL s.toList)

/-- Python `str.split(sep)` for a one-character separator: splits on every
occurrence and keeps empty pieces, so the result always has one more piece
than there are separators. -/
def pySplitCh (sep : Char) : List Char → List (List Char)
  | [] => [[]]
  | c :: rest =>
    let r := pySplitCh sep rest
    if c == sep then [] :: r
    else
      match r with
      | [] => [[c]]
      | h :: t => (c :: h) :: t

/-- Python substring test `pat in l` (empty pattern is in everything). -/
def containsL (pat : List Char) : List Char → Bool
  | [] => pat.isEmpty
  | l@(_ :: rest) => List.isPrefixOf pat l || containsL pat rest

/-- Worker for `replaceL`, structurally recursive on a fuel counter that is
an upper bound on the input length (each step consumes at least one
character, so the fuel never runs out when it starts at the length). -/
def replaceGo (pat rep : List Char) : Nat → List Char → List Char
  | _, [] => []
  | 0, l => l
  | fuel + 1, l@(c :: rest) =>
    if pat.isEmpty then l
    else if List.isPrefixOf pat l then rep ++ replaceGo pat rep fuel (l.drop pat.length)
    else c :: replaceGo pat rep fuel rest

/-- Python `str.replace(pat, rep)` for a non-empty `pat`: replace every
non-overlapping occurrence, scanning left to right.  (All call sites in the
source use non-empty patterns; for an empty pattern this model returns the
input unchanged.) -/
def replaceL (pat rep l : List Char) : List Char := replaceGo pat rep l.length l

/-- Worker for `splitOnL`, structurally recursive on a fuel counter that is
an upper bound on the input length. -/
def splitOnGo (sep : List Char) : Nat → List Char → List (List Char)
  | _, [] => [[]]
  | 0, l => [l]
  | fuel + 1, l@(c :: rest) =>
    if sep.isEmpty then [l]
    else if List.isPrefixOf sep l then [] :: splitOnGo sep fuel (l.drop sep.length)
    else
      match splitOnGo sep fuel rest with
      | [] => [[c]]
      | h :: t => (c :: h) :: t

/-- Python `str.split(sep)` for a non-empty string separator (Python raises
on an empty separator; this model returns the input whole in that case). -/
def splitOnL (sep l : List Char) : List (List Char) := splitOnGo sep l.length l

/-- Python `str.title()` restricted to ASCII letters: the first letter of
each letter-run is uppercased and the rest lowercased. -/
def pyTitleGo : Bool → List Char → List Char
  | _, [] => []
  | prevAlpha, c :: rest =>
    if c.isAlpha then
      (if prevAlpha then c.toLower else c.toUpper) :: pyTitleGo true rest
    else c :: pyTitleGo false rest

/-- Python `str.title()`. -/
def pyTitle (l : List Char) : List Char := pyTitleGo false l

/-- Python format spec `{n:02d}` for a non-negative integer. -/
def pad2 (n : Nat) : String := if n < 10 then "0" ++ toString n else toString n

/-- Python truthiness of an optional string (`None` and `""` are falsy). -/
def truthyStr : Option String → Bool
  | none => false
  | some s => !s.isEmpty

/-!
## Question generation (`bot.py`, `get_dynamic_questions`, lines 147-183)
-/

/-- One iteration of the parsing loop in `get_dynamic_questions`
(`bot.py` lines 159-165): strip the line; keep it only if it matches
`^\d+\.` (one or more digits then a period); then delete the `^\d+\.\s*`
prefix and keep the remainder if it is non-empty.  (`\d`/`\s` are modelled
as ASCII digits/whitespace.) -/
def questionOfLine (line : List Char) : Option (List Char) :=
  let t := pyStripL line
  let ds := t.takeWhile Char.isDigit
  if ds.isEmpty then none
  else
    match t.drop ds.length with
    | c :: rest =>
      if c == '.' then
        let q := rest.dropWhile Char.isWhitespace
        if q.isEmpty then none else some q
      else none
    | [] => none

/-- `bot.py` lines 157-165: split the completion response on newlines and
collect the surviving questions in order. -/
def parseQuestions (response : String) : List String :=
  (pySplitCh '\n' response.toList).filterMap
    (fun l => (questionOfLine l).map String.mk)

/-- The static fallback questions (`bot.py` lines 167-173 and 177-183; the
two copies are identical). -/
def fallbackQuestions : List String :=
  ["What specific services do you need?",
   "When do you need this service?",
   "Do you have any specific requirements or preferences?",
   "What is your budget range?",
   "Is there anything else the business should know?"]

/-- `bot.py` `get_dynamic_questions`, outcome as a function of the
completion call result (`none` models the call raising; the parsing code
itself cannot raise): on failure or an empty parse, the fallback list. -/
def getDynamicQuestions (completionResult : Option String) : List String :=
  match completionResult with
  | none => fallbackQuestions
  | some response =>
    let questions := parseQuestions response
    if questions.isEmpty then fallbackQuestions else questions

/-!
## Message chunking (`bot.py`, `send_long_message`, lines 50-57)
-/

/-- `bot.py` line 53: `[content[i:i+1900] for i in range(0, len(content), 1900)]`,
the successive 1900-character slices of the text, in order. -/
def sendChunks (l : List Char) : List (List Char) :=
  if h : l = [] then [] else l.take 1900 :: sendChunks (l.drop 1900)
termination_by l.length
decreasing_by
  simp only [List.length_drop]
  exact Nat.sub_lt (List.length_pos.mpr h) (by norm_num)

example : parseQuestions "1. Foo?\n2.Bar?\nnot a question\n3.   \n" = ["Foo?", "Bar?"] := by decide
example : pyStrip "  a b \n" = "a b" := by decide
example : String.mk (replaceL "[1] ".toList [] "[1] Joes".toList) = "Joes" := by decide
example : (splitOnL "biz/".toList "https://x/biz/a?b".toList).map String.mk = ["https://x/", "a?b"] := by decide
example : (splitOnL "?".toList "a?b".toList).map String.mk = ["a", "b"] := by decide
example : String.mk (pyTitle "restaurant reservation".toList) = "Restaurant Reservation" := by decide

/-!
## Channel history (`agent.py`, `MistralAgent.run`, lines 40-57)
-/

/-- `agent.py` line 12. -/
def MAX_HISTORY : Nat := 30

/-- One entry of `self.channel_history[channel_id]`.  The list mixes one
inserted system-prompt dict with platform message objects; messages are
identified here by their content. -/
inductive HTurn
  | system
  | msg (content : String)
deriving DecidableEq

/-- Modelled from the spec (§6, the chat-platform interface, which is not
part of `src/`): `channel.history(limit := n)` yields up to `n` of the
channel's most recent messages in reverse-chronological order.  `chron` is
the channel's message list in chronological order. -/
def platformHistoryFetch (limit : Nat) (chron : List String) : List String :=
  chron.reverse.take limit

/-- `agent.py` lines 45-50: when the stored history for the channel is
empty, append each fetched message in the order the platform delivers them,
then insert the system turn at position 0. -/
def ensureSeeded (hist : List HTurn) (chron : List String) : List HTurn :=
  if hist.isEmpty then
    HTurn.system :: (platformHistoryFetch MAX_HISTORY chron).map HTurn.msg
  else hist

/-- `agent.py` lines 52-57: append the newest turn, then, if the length
exceeds `MAX_HISTORY`, keep only the last `MAX_HISTORY` entries
(`lst[-MAX_HISTORY:]`). -/
def appendAndTrim (hist : List α) (turn : α) : List α :=
  let h2 := hist ++ [turn]
  if MAX_HISTORY < h2.length then h2.drop (h2.length - MAX_HISTORY) else h2

/-!
## Yelp search (`agent.py`, `MistralAgent.yelp_search`, lines 91-210)
-/

/-- The fields of a summary record from the Yelp search response that
`yelp_search` reads.  `rating` is a number in the source; it is only ever
interpolated into output text, so it is modelled by its rendered form.
`display_phone` and `url` are read with `.get`, so they may be absent. -/
structure BusinessSummary where
  id : String
  name : String
  display_phone : Option String
  display_address : List String
  rating : String
  review_count : Nat
  url : Option String
deriving DecidableEq

/-- One span of `details['hours'][0]['open']`.  The `end` field is renamed
`stop` (`end` is a Lean keyword). -/
structure OpenSpan where
  day : Nat
  start : String
  stop : String
deriving DecidableEq

/-- One entry of `details['hours']`. -/
structure HoursBlock where
  is_open_now : Bool
  openSpans : List OpenSpan
deriving DecidableEq

/-- The fields of a Yelp detail record that `yelp_search` reads; optional
fields model `.get`/`in` access. -/
structure BusinessDetail where
  price : Option String
  hours : List HoursBlock
  categories : Option (List String)
  transactions : List String
  url : Option String
deriving DecidableEq

/-- A remote Yelp API call, for the call log. -/
inductive RemoteCall
  | searchQuery (term location : String)
  | businessQuery (id : String)
deriving DecidableEq

/-- Oracle for the two Yelp API endpoints: the outcome of
`search_query` (an exception message or the business list) and of
`business_query` per business id (`none` models the call raising). -/
structure YelpRemote where
  searchResult : String → String → Except String (List BusinessSummary)
  detail : String → Option BusinessDetail

/-- `re.match(r'^\d{5}$', s)`: anchored at the start; without
`re.MULTILINE`, `$` matches at the end of the string or just before one
trailing newline, so five digits followed by a single `'\n'` also match.
(`\d` is modelled as an ASCII decimal digit.) -/
def reMatchFiveDigits (s : String) : Bool :=
  match s.toList with
  | [a, b, c, d, e] => [a, b, c, d, e].all Char.isDigit
  | [a, b, c, d, e, f] => [a, b, c, d, e].all Char.isDigit && f == '\n'
  | _ => false

/-- `agent.py` lines 169-170: `f"{int(t[:2]):02d}:{t[2:]}"` (Python `int`
raises on non-digits, which the enclosing `try` turns into the degraded
record; this model totalizes it with 0, which no claim depends on). -/
def fmtClock (t : String) : String :=
  pad2 ((String.mk (t.toList.take 2)).toNat?.getD 0) ++ ":" ++ String.mk (t.toList.drop 2)

/-- `agent.py` lines 148-196: the rendered block for one business whose
detail lookup succeeded. -/
def renderFull (today : Nat) (rank : Nat) (b : BusinessSummary) (d : BusinessDetail) : String :=
  let base := "\n[" ++ toString rank ++ "] " ++ b.name
      ++ "\n    📞 " ++ b.display_phone.getD "N/A"
      ++ "\n    ⭐ " ++ b.rating ++ " (" ++ toString b.review_count ++ " reviews)"
      ++ "\n    📍 " ++ String.intercalate ", " b.display_address
  let priceParts := match d.price with | some p => [p] | none => []
  let hourParts :=
    match d.hours.head? with
    | none => []
    | some hb =>
      let openClosed := if hb.is_open_now then "Open" else "Closed"
      let todayParts :=
        if hb.openSpans.isEmpty then []
        else
          match hb.openSpans.find? (fun sp => sp.day == today) with
          | some th => [fmtClock th.start ++ "-" ++ fmtClock th.stop]
          | none => []
      openClosed :: todayParts
  let statusParts := priceParts ++ hourParts
  let statusLines :=
    if statusParts.isEmpty then []
    else ["    💫 " ++ String.intercalate " • " statusParts]
  let categoryLines :=
    match d.categories with
    | none => []
    | some cats =>
      let cs := cats.take 3
      if cs.isEmpty then [] else ["    🏷️ " ++ String.intercalate ", " cs]
  let transactionLines :=
    if d.transactions.isEmpty then []
    else ["    💳 " ++ String.intercalate ", "
            (d.transactions.map (fun t => String.mk (pyTitle (replaceL ['_'] [' '] t.toList))))]
  let yelpUrlLines := if truthyStr b.url then ["    🔗 " ++ b.url.getD ""] else []
  let websiteLines := if truthyStr d.url then ["    🌐 " ++ d.url.getD ""] else []
  String.intercalate "\n"
    (base :: (statusLines ++ categoryLines ++ transactionLines ++ yelpUrlLines ++ websiteLines))

/-- `agent.py` lines 198-205: the degraded block emitted when the detail
lookup for a business raises — built only from the summary fields (name,
rating, review count, address, summary URL). -/
def renderDegraded (rank : Nat) (b : BusinessSummary) : String :=
  "\n[" ++ toString rank ++ "] " ++ b.name
  ++ "\n    ⭐ " ++ b.rating ++ " (" ++ toString b.review_count ++ " reviews)"
  ++ "\n    📍 " ++ String.intercalate ", " b.display_address
  ++ "\n    🔗 " ++ b.url.getD "N/A"

/-- The block for one business: the full rendering when its detail lookup
succeeded, the degraded rendering when it raised. -/
def renderBusiness (today rank : Nat) (b : BusinessSummary) : Option BusinessDetail → String
  | some d => renderFull today rank b d
  | none => renderDegraded rank b

/-- The loop of `agent.py` lines 125-205 (`enumerate(businesses, 1)`),
with `rank` the 1-based index of the first list element: one rendered block
per business, a detail failure degrading only that business's block. -/
def renderBlocks (remote : YelpRemote) (today : Nat) : Nat → List BusinessSummary → List String
  | _, [] => []
  | rank, b :: rest =>
    renderBusiness today rank b (remote.detail b.id) :: renderBlocks remote today (rank + 1) rest

/-- `agent.py` line 119: the header line of the rendered results. -/
def resultsHeader (term zipcode : String) : String :=
  "🔍 Top results for " ++ squote ++ term ++ squote ++ " in " ++ zipcode ++ ":"

/-- `agent.py` `yelp_search` (lines 91-210), returning the
`(formatted_string, raw_businesses)` pair of the source together with the
log of remote Yelp calls the execution performs.  The local
`business_details` dict of the source is dead state (never read after being
built) and is not modelled. -/
def yelp_search (remote : YelpRemote) (today : Nat) (term zipcode : String) :
    (String × List BusinessSummary) × List RemoteCall :=
  if !reMatchFiveDigits zipcode then
    (("Error: Please provide a valid 5-digit zipcode.", []), [])
  else
    match remote.searchResult term zipcode with
    | .error e => (("Error searching Yelp: " ++ e, []), [.searchQuery term zipcode])
    | .ok businesses =>
      if businesses.isEmpty then
        (("No results found for " ++ squote ++ term ++ squote ++ " in zipcode "
            ++ zipcode ++ ".", []),
         [.searchQuery term zipcode])
      else
        ((String.intercalate "\n"
            (resultsHeader term zipcode :: renderBlocks remote today 1 businesses),
          businesses),
         .searchQuery term zipcode :: businesses.map (fun b => RemoteCall.businessQuery b.id))

example : reMatchFiveDigits "90210" = true := by decide
example : reMatchFiveDigits "9021a" = false := by decide
example : reMatchFiveDigits "902101" = false := by decide
example : reMatchFiveDigits "12345\n" = true := by decide
example : reMatchFiveDigits "1234" = false := by decide
example : reMatchFiveDigits "" = false := by decide

/-!
## Sessions and the command layer (`bot.py`)
-/

/-- A completed `get` session, `bot.py` line 263. -/
structure Session where
  business_type : String
  zipcode : String
  answers : List (String × String)
deriving DecidableEq

/-- Python `d[k] = v` on a dict modelled as an insertion-ordered
association list with unique keys: replace the value at the first matching
key in place, or append a new binding. -/
def pyDictSet [BEq κ] (d : List (κ × β)) (k : κ) (v : β) : List (κ × β) :=
  match d with
  | [] => [(k, v)]
  | p :: rest => if p.1 == k then (k, v) :: rest else p :: pyDictSet rest k v

/-- Python `d.get(k)`. -/
def pyDictGet [BEq κ] (d : List (κ × β)) (k : κ) : Option β :=
  (d.find? (fun p => p.1 == k)).map (fun p => p.2)

/-- Whether a key is bound in the dict. -/
def hasKey [BEq κ] (d : List (κ × β)) (k : κ) : Bool :=
  (pyDictGet d k).isSome

/-- The `user_context` map, `bot.py` line 38, keyed by the author id. -/
abbrev UserCtx : Type := List (Nat × Session)

/-- `bot.py` lines 359 and 412 (the characters are the literal — mojibake —
bytes of the source file). -/
def runGetFirstMsg : String :=
  "‚ùå Please run !get first to provide your business type and zip code."

/-- Outcome of the `list`/`draft` commands as far as the claims are
concerned. -/
inductive CmdResult
  | rejected (msg : String)
  | proceeded
deriving DecidableEq

/-- `bot.py` `list_businesses` (lines 354-374): reject when
`user_context.get(ctx.author.id)` is falsy (stored sessions are non-empty
dicts, hence truthy), otherwise run the Yelp search with the stored type
and zip.  Returned with the log of remote calls made. -/
def listCmd (remote : YelpRemote) (today : Nat) (ctx : UserCtx) (uid : Nat) :
    CmdResult × List RemoteCall :=
  match pyDictGet ctx uid with
  | none => (.rejected runGetFirstMsg, [])
  | some s => (.proceeded, (yelp_search remote today s.business_type s.zipcode).2)

/-- A remote call made by the `draft` command: a Yelp call or one
completion call per returned business. -/
inductive DraftCall
  | yelp (c : RemoteCall)
  | completion
deriving DecidableEq

/-- `bot.py` `draft` (lines 407-433): the same session gate as `list`;
when it proceeds it searches Yelp and then drafts one message (one
completion call) per returned business. -/
def draftCmd (remote : YelpRemote) (today : Nat) (ctx : UserCtx) (uid : Nat) :
    CmdResult × List DraftCall :=
  match pyDictGet ctx uid with
  | none => (.rejected runGetFirstMsg, [])
  | some s =>
    let r := yelp_search remote today s.business_type s.zipcode
    (.proceeded, r.2.map DraftCall.yelp ++ r.1.2.map (fun _ => DraftCall.completion))

/-- A message of the channel history as delivered to
`ctx.channel.history(limit=20)` (newest first): whether its author is the
bot, and its content. -/
structure ChanMsg where
  fromBot : Bool
  content : String

/-- `bot.py` line 295: the marker the `message` command searches channel
history for.  These characters are the literal bytes of the source file,
which are the MacRoman mojibake of the magnifier emoji — not the actual
"🔍" that `yelp_search` renders. -/
def topResultsMarkerB : String := "üîç Top results for"

/-- `bot.py` lines 314-315: the link marker, likewise the mojibake form of
"    🔗 ". -/
def linkMarkerB : String := "    üîó "

/-- `bot.py` line 300. -/
def runSearchFirstMsg : String :=
  "‚ùå Please run a !search command first to get business results."

/-- `bot.py` line 325. -/
def defaultOutreachMsg : String :=
  "Hi! I found your business on Yelp and I" ++ squote
  ++ "m interested in getting more information about your services. Could you please provide details about pricing and availability? Thank you!"

/-- `bot.py` lines 306-317: find the first line starting with
`f"[{num}]"` and extract the name by deleting `f"[{num}] "`. -/
def findBusinessLine (lines : List String) (num : String) : Option (Nat × String) :=
  match lines.findIdx? (fun ln => List.isPrefixOf ("[" ++ num ++ "]").toList ln.toList) with
  | none => none
  | some i =>
    some (i, String.mk (replaceL ("[" ++ num ++ "] ").toList [] ((lines.drop i).headD "").toList))

/-- `bot.py` lines 313-316: scan `lines[i : min(i+7, len(lines))]` for the
first line containing the link marker and extract the URL by deleting the
marker and stripping. -/
def findYelpUrl (lines : List String) (i : Nat) : Option String :=
  (((lines.drop i).take 7).find? (fun ln => containsL linkMarkerB.toList ln.toList)).map
    (fun ln => pyStrip (String.mk (replaceL linkMarkerB.toList [] ln.toList)))

/-- Outcome of the `message` command. -/
inductive MsgResult
  | noApiKey
  | searchFirst (msg : String)
  | noPage (num : String)
  | instructions (name url messageUrl text : String)
deriving DecidableEq

/-- `bot.py` `message_business` (lines 279-352).  It makes no remote Yelp
or completion calls and never reads `user_context`; its behaviour depends
only on the API-key configuration, the channel history and its arguments. -/
def messageCmd (apiKeyConfigured : Bool) (hist : List ChanMsg) (num : String)
    (text? : Option String) : MsgResult :=
  if !apiKeyConfigured then .noApiKey
  else
    match (hist.take 20).find?
        (fun m => m.fromBot && containsL topResultsMarkerB.toList m.content.toList) with
    | none => .searchFirst runSearchFirstMsg
    | some sr =>
      let lines := (pySplitCh '\n' sr.content.toList).map String.mk
      match findBusinessLine lines num with
      | none => .noPage num
      | some (i, name) =>
        match findYelpUrl lines i with
        | none => .noPage num
        | some url =>
          if url.isEmpty then .noPage num
          else
            let text :=
              match text? with
              | some t => if t.isEmpty then defaultOutreachMsg else t
              | none => defaultOutreachMsg
            let bizId := String.mk
              (((splitOnL "?".toList
                  ((splitOnL "biz/".toList url.toList).getLastD [])).headD []))
            .instructions name url
              ("https://www.yelp.com/message_the_business/" ++ bizId) text

/-!
## The interactive `get` flow (`bot.py`, `get`, lines 221-269)
-/

/-- The outcome of one `bot.wait_for('message', ...)` suspension point:
a matching message arrived, the wait timed out (`asyncio.TimeoutError`),
or some other exception was raised there. -/
inductive GetEvent
  | recv (content : String)
  | timeout
  | err

/-- The environment of one execution of the `get` command: the outcome of
the business-type wait, of the zip-code wait, of the question-generation
completion call (`none` models it raising, which `get_dynamic_questions`
absorbs), and of the `i`-th (0-based) answer wait. -/
structure GetEnv where
  businessEv : GetEvent
  zipEv : GetEvent
  completion : Option String
  answerEv : Nat → GetEvent

/-- The process-wide mutable state of `bot.py`: the
`interactive_session_active` flag (line 35) and the `user_context` map
(line 38). -/
structure BotState where
  interactive : Bool
  user_context : List (Nat × Session)

/-- The state at module load, `bot.py` lines 35 and 38. -/
def initialBotState : BotState := { interactive := false, user_context := [] }

/-- How one execution of `get` ended. -/
inductive GetOutcome
  | completed (s : Session)
  | rejectedType
  | rejectedZip
  | timedOut
  | errored

/-- `GetOutcome.completed`? -/
def GetOutcome.isCompleted : GetOutcome → Bool
  | .completed _ => true
  | _ => false

/-- How the answer loop can abort: a timeout (handled by the dedicated
`except asyncio.TimeoutError` at line 257) or any other exception
(propagating to the generic handler). -/
inductive AnswerAbort
  | timedOut
  | errored

/-- The corresponding `get` outcome. -/
def AnswerAbort.toOutcome : AnswerAbort → GetOutcome
  | .timedOut => .timedOut
  | .errored => .errored

/-- The answer loop, `bot.py` lines 252-259: one wait per question; the
stripped answer is stored under the literal question text
(`answers[question] = ...`). -/
def collectAnswers (ev : Nat → GetEvent) :
    List String → Nat → List (String × String) → Except AnswerAbort (List (String × String))
  | [], _, acc => .ok acc
  | q :: qs, i, acc =>
    match ev i with
    | .recv a => collectAnswers ev qs (i + 1) (pyDictSet acc q (pyStrip a))
    | .timeout => .error .timedOut
    | .err => .error .errored

/-- The body of the `try:` block of `get` (`bot.py` lines 226-263), run
with the interactive flag already set.  A `TimeoutError` on the first two
waits has no dedicated handler and lands in the generic `except` like any
other exception; message sends are modelled as infallible.  The session is
written (line 263) only on the fully successful path. -/
def runGetBody (env : GetEnv) (uid : Nat) (st : BotState) : BotState × GetOutcome :=
  match env.businessEv with
  | .timeout => (st, .errored)
  | .err => (st, .errored)
  | .recv c =>
    if (pyStrip c).length < 2 then (st, .rejectedType)
    else
      match env.zipEv with
      | .timeout => (st, .errored)
      | .err => (st, .errored)
      | .recv z =>
        if !reMatchFiveDigits (pyStrip z) then (st, .rejectedZip)
        else
          match collectAnswers env.answerEv (getDynamicQuestions env.completion) 0 [] with
          | .error a => (st, a.toOutcome)
          | .ok answers =>
            ({ st with
                user_context := pyDictSet st.user_context uid
                  ⟨pyStrip c, pyStrip z, answers⟩ },
             .completed ⟨pyStrip c, pyStrip z, answers⟩)

/-- `bot.py` `get` (lines 221-269): set the interactive flag, run the
body, and clear the flag in the `finally:` clause on every exit path. -/
def runGet (env : GetEnv) (uid : Nat) (st : BotState) : BotState × GetOutcome :=
  let r := runGetBody env uid { st with interactive := true }
  ({ r.1 with interactive := false }, r.2)

/-!
## Theorems
-/

/-- A Yelp oracle with no results and failing detail lookups, used for
concrete instantiations. -/
def trivialYelpRemote : YelpRemote :=
  { searchResult := fun _ _ => .ok [], detail := fun _ => none }

/-- Spec-side predicate, following the claim: a string of exactly five
(ASCII decimal) digits. -/
def isFiveDigitString (s : String) : Bool :=
  s.toList.length == 5 && s.toList.all Char.isDigit

/-- Spec-side predicate for the amendment: five digits followed by exactly
one trailing newline. -/
def isFiveDigitsNewline (s : String) : Bool :=
  s.toList.length == 6 && (s.toList.take 5).all Char.isDigit
    && (s.toList.getLastD ' ' == '\n')

/-- C2 (corrected), counterexample to the claim as stated: `"12345\n"` is
not a string of exactly five digits, yet `yelp_search` accepts it (Python
`$` matches just before a trailing newline) and performs a remote search
call instead of rejecting it with the validation error. -/
theorem zipcode_validation_counterexample :
    isFiveDigitString "12345\n" = false ∧
    reMatchFiveDigits "12345\n" = true ∧
    (yelp_search trivialYelpRemote 0 "pizza" "12345\n").2 =
      [RemoteCall.searchQuery "pizza" "12345\n"] := by
  refine ⟨by decide, by decide, by decide⟩

/-- C2 (amended): `yelp_search` accepts the zipcode exactly when it is five
digits or five digits followed by one trailing newline; on rejection it
returns the user-facing validation error with an empty business list and
performs no remote call (the empty call log). -/
theorem zipcode_validation_amended (remote : YelpRemote) (today : Nat) (term zipcode : String) :
    (reMatchFiveDigits zipcode =
      (isFiveDigitString zipcode || isFiveDigitsNewline zipcode)) ∧
    (reMatchFiveDigits zipcode = false →
      yelp_search remote today term zipcode =
        (("Error: Please provide a valid 5-digit zipcode.", []), [])) := by
  constructor
  · unfold reMatchFiveDigits isFiveDigitString isFiveDigitsNewline
    rcases zipcode.toList with _ | ⟨a, _ | ⟨b, _ | ⟨c, _ | ⟨d, _ | ⟨e, _ | ⟨f, _ | ⟨g, t⟩⟩⟩⟩⟩⟩⟩ <;>
      simp [List.all_cons, Nat.succ_ne_zero]
  · intro h
    unfold yelp_search
    rw [h]
    rfl

/-- Witness for `zipcode_validation_amended` at the rejected input
`"zip"`. -/
theorem zipcode_validation_amended_witness :
    yelp_search trivialYelpRemote 0 "pizza" "zip" =
      (("Error: Please provide a valid 5-digit zipcode.", []), []) :=
  (zipcode_validation_amended trivialYelpRemote 0 "pizza" "zip").2 (by decide)

/-- C3: appending a turn to any channel history never leaves more than
`MAX_HISTORY` (30) entries, and the stored list is a suffix of the old
history followed by the new turn — the survivors keep FIFO order and only
the oldest entries are evicted.  Any sequence of appends ends with one
append from some intermediate state, so the bound holds after every
append. -/
theorem history_append_cap_fifo (hist : List α) (turn : α) :
    (appendAndTrim hist turn).length ≤ MAX_HISTORY ∧
    appendAndTrim hist turn <:+ hist ++ [turn] := by
  unfold appendAndTrim
  by_cases h : MAX_HISTORY < (hist ++ [turn]).length
  · rw [if_pos h]
    exact ⟨by simp [List.length_drop]; omega, List.drop_suffix _ _⟩
  · rw [if_neg h]
    exact ⟨by omega, List.suffix_rfl⟩

/-- C8 (code bug): with an empty buffer and a channel whose chronological
messages are `["m1", "m2"]`, the platform delivers `["m2", "m1"]` and the
seeding code stores them in that delivered, reverse-chronological order —
it never reverses them — so the stored history is
`[system, m2, m1]`, not the chronological `[system, m1, m2]` that the
claim (and the source's own "process messages in chronological order"
comment) describes. -/
theorem seeding_stores_platform_order :
    ensureSeeded [] ["m1", "m2"] = [HTurn.system, HTurn.msg "m2", HTurn.msg "m1"] ∧
    ensureSeeded [] ["m1", "m2"] ≠ [HTurn.system, HTurn.msg "m1", HTurn.msg "m2"] := by
  refine ⟨by decide, by decide⟩

/-- C5: if the completion call for question generation fails, or parsing
its response yields zero questions, `get_dynamic_questions` returns the
fixed five-question fallback list verbatim (and an error is never
surfaced: the function is total on these outcomes). -/
theorem question_generator_fallback (completionResult : Option String)
    (h : completionResult = none ∨
      ∃ r, completionResult = some r ∧ parseQuestions r = []) :
    getDynamicQuestions completionResult = fallbackQuestions := by
  rcases h with h | ⟨r, hr, hp⟩
  · rw [h]; rfl
  · rw [hr]; simp [getDynamicQuestions, hp]

/-- Witness for `question_generator_fallback`: a failed completion call. -/
theorem question_generator_fallback_witness :
    getDynamicQuestions none = fallbackQuestions :=
  question_generator_fallback none (Or.inl rfl)

/-- `sendChunks` yields the empty chunk list exactly on empty input. -/
theorem sendChunks_eq_nil_iff (l : List Char) : sendChunks l = [] ↔ l = [] := by
  rw [sendChunks]
  split <;> simp_all

/-- Concatenating the chunks restores the original text. -/
theorem sendChunks_flatten (l : List Char) : (sendChunks l).flatten = l := by
  have H : ∀ (n : Nat) (l : List Char), l.length ≤ n → (sendChunks l).flatten = l := by
    intro n
    induction n with
    | zero =>
      intro l hl
      have : l = [] := List.length_eq_zero.mp (Nat.le_zero.mp hl)
      subst this
      rw [sendChunks]
      simp
    | succ n ih =>
      intro l hl
      rw [sendChunks]
      split
      · simp_all
      · rename_i h
        rw [List.flatten_cons, ih (l.drop 1900) ?_, List.take_append_drop]
        have := List.length_pos.mpr h
        simp only [List.length_drop]
        omega
  exact H l.length l le_rfl

/-- The number of chunks is the length divided by 1900, rounded up. -/
theorem sendChunks_length (l : List Char) :
    (sendChunks l).length = (l.length + 1899) / 1900 := by
  have H : ∀ (n : Nat) (l : List Char), l.length ≤ n →
      (sendChunks l).length = (l.length + 1899) / 1900 := by
    intro n
    induction n with
    | zero =>
      intro l hl
      have : l = [] := List.length_eq_zero.mp (Nat.le_zero.mp hl)
      subst this
      rw [sendChunks]
      simp
    | succ n ih =>
      intro l hl
      rw [sendChunks]
      split
      · simp_all
      · rename_i h
        have hpos := List.length_pos.mpr h
        rw [List.length_cons, ih (l.drop 1900) ?_] <;> simp only [List.length_drop]
        · omega
        · omega
  exact H l.length l le_rfl

/-- Every chunk except possibly the last has length exactly 1900. -/
theorem sendChunks_dropLast_full (l : List Char) :
    ((sendChunks l).dropLast.all fun c => c.length == 1900) = true := by
  have H : ∀ (n : Nat) (l : List Char), l.length ≤ n →
      ((sendChunks l).dropLast.all fun c => c.length == 1900) = true := by
    intro n
    induction n with
    | zero =>
      intro l hl
      have : l = [] := List.length_eq_zero.mp (Nat.le_zero.mp hl)
      subst this
      rw [sendChunks]
      simp
    | succ n ih =>
      intro l hl
      rw [sendChunks]
      split
      · simp
      · rename_i h
        have hpos := List.length_pos.mpr h
        cases hr : sendChunks (l.drop 1900) with
        | nil => simp [List.dropLast_single]
        | cons r rs =>
          have hd : l.drop 1900 ≠ [] := by
            intro hd
            rw [hd] at hr
            exact absurd ((sendChunks_eq_nil_iff []).mpr rfl) (by simp [hr])
          have hlen : 1900 < l.length := by
            rcases Nat.lt_or_ge 1900 l.length with hc | hc
            · exact hc
            · exact absurd (List.drop_of_length_le hc) hd
          rw [List.dropLast_cons₂, List.all_cons]
          have h1 : (l.take 1900).length == 1900 := by
            simp [List.length_take]
            omega
          rw [h1, ← hr, Bool.true_and]
          exact ih (l.drop 1900) (by simp only [List.length_drop]; omega)
  exact H l.length l le_rfl

/-- C9: chunking a text of length `L` for output produces exactly
`⌈L/1900⌉ = (L + 1899) / 1900` ordered pieces, every piece except possibly
the last has length exactly 1900, and concatenating the pieces in order
restores the original text. -/
theorem long_message_chunking (l : List Char) :
    (sendChunks l).flatten = l ∧
    (sendChunks l).length = (l.length + 1899) / 1900 ∧
    ((sendChunks l).dropLast.all fun c => c.length == 1900) = true :=
  ⟨sendChunks_flatten l, sendChunks_length l, sendChunks_dropLast_full l⟩

/-- C1: the interactive flag is false at module load, and after any
execution of the `get` flow — any inputs, any timeout, any validation
rejection, any unexpected error at a wait point, or full success — the
flag is false again: the `finally:` clause clears it on every exit path. -/
theorem get_interactive_flag_released :
    initialBotState.interactive = false ∧
    ∀ (env : GetEnv) (uid : Nat) (st : BotState),
      ((runGet env uid st).1).interactive = false :=
  ⟨rfl, fun _ _ _ => rfl⟩

/-- Looking a key up after a Python dict assignment: the new value at the
assigned key, the old lookup elsewhere. -/
theorem pyDictGet_pyDictSet [BEq κ] [LawfulBEq κ] [DecidableEq κ]
    (d : List (κ × β)) (k k' : κ) (v : β) :
    pyDictGet (pyDictSet d k v) k' = if k = k' then some v else pyDictGet d k' := by
  induction d with
  | nil =>
    by_cases h : k = k' <;> simp [pyDictSet, pyDictGet, List.find?_cons, beq_iff_eq, h]
  | cons p rest ih =>
    by_cases hpk : p.1 = k
    · by_cases hkk : k = k' <;>
        simp [pyDictSet, pyDictGet, List.find?_cons, beq_iff_eq, hpk, hkk]
    · by_cases hkk : k = k' <;> by_cases hpk' : p.1 = k' <;>
        simp_all [pyDictSet, pyDictGet, List.find?_cons, beq_iff_eq]

/-- Setting a key makes it present. -/
theorem hasKey_pyDictSet_self [BEq κ] [LawfulBEq κ] [DecidableEq κ]
    (d : List (κ × β)) (k : κ) (v : β) :
    hasKey (pyDictSet d k v) k = true := by
  simp [hasKey, pyDictGet_pyDictSet]

/-- Setting a key keeps every present key present. -/
theorem hasKey_pyDictSet_mono [BEq κ] [LawfulBEq κ] [DecidableEq κ]
    (d : List (κ × β)) (k k' : κ) (v : β)
    (h : hasKey d k' = true) : hasKey (pyDictSet d k v) k' = true := by
  by_cases hkk : k = k'
  · simp [hasKey, pyDictGet_pyDictSet, hkk]
  · simp only [hasKey, pyDictGet_pyDictSet, hkk, if_false]
    exact h

/-- If the answer loop finishes, every pending question ends up answered
(bound in the final answer dict), and previously recorded answers are
still bound. -/
theorem collectAnswers_ok (ev : Nat → GetEvent) :
    ∀ (qs : List String) (i : Nat) (acc ans : List (String × String)),
      collectAnswers ev qs i acc = .ok ans →
      (∀ k, hasKey acc k = true → hasKey ans k = true) ∧
      (qs.all fun q => hasKey ans q) = true := by
  intro qs
  induction qs with
  | nil =>
    intro i acc ans h
    cases h
    exact ⟨fun k hk => hk, rfl⟩
  | cons q rest ih =>
    intro i acc ans h
    unfold collectAnswers at h
    cases hev : ev i with
    | recv a =>
      rw [hev] at h
      obtain ⟨hmono, hall⟩ := ih (i + 1) (pyDictSet acc q (pyStrip a)) ans h
      refine ⟨fun k hk => hmono k (hasKey_pyDictSet_mono acc q k (pyStrip a) hk), ?_⟩
      rw [List.all_cons, hall, hmono q (hasKey_pyDictSet_self acc q (pyStrip a)), Bool.and_self]
    | timeout => rw [hev] at h; cases h
    | err => rw [hev] at h; cases h

/-- C10, at the level of the `try:` body: an aborted run leaves the session
map untouched, and a completed run wrote exactly the collected session for
the invoking user, with every generated follow-up question answered. -/
theorem runGetBody_sessions (env : GetEnv) (uid : Nat) (st : BotState) :
    match (runGetBody env uid st).2 with
    | .completed s =>
        (runGetBody env uid st).1.user_context = pyDictSet st.user_context uid s ∧
        ((getDynamicQuestions env.completion).all fun q => hasKey s.answers q) = true
    | _ => (runGetBody env uid st).1.user_context = st.user_context := by
  unfold runGetBody
  cases env.businessEv with
  | timeout => exact rfl
  | err => exact rfl
  | recv c =>
    dsimp only
    by_cases h1 : (pyStrip c).length < 2
    · rw [if_pos h1]
    · rw [if_neg h1]
      cases env.zipEv with
      | timeout => exact rfl
      | err => exact rfl
      | recv z =>
        dsimp only
        by_cases h2 : (!reMatchFiveDigits (pyStrip z)) = true
        · rw [if_pos h2]
        · rw [if_neg h2]
          cases hc : collectAnswers env.answerEv (getDynamicQuestions env.completion) 0 [] with
          | error a => cases a <;> exact rfl
          | ok answers => exact ⟨rfl, (collectAnswers_ok env.answerEv _ 0 [] answers hc).2⟩

/-- C10: every execution of the `get` flow that aborts before completion
(short business type, invalid zipcode, timeout on any wait, or an
unexpected error) leaves the session map exactly as it was — any stored
session survives and no partial answers are written — while a completed
run stores the new session for the invoking user only after every
follow-up question has been answered. -/
theorem get_abort_preserves_sessions (env : GetEnv) (uid : Nat) (st : BotState) :
    match (runGet env uid st).2 with
    | .completed s =>
        (runGet env uid st).1.user_context = pyDictSet st.user_context uid s ∧
        ((getDynamicQuestions env.completion).all fun q => hasKey s.answers q) = true
    | _ => (runGet env uid st).1.user_context = st.user_context :=
  runGetBody_sessions env uid { st with interactive := true }

/-- `renderBlocks` yields one block per business, at every start rank. -/
theorem renderBlocks_length (remote : YelpRemote) (today : Nat) :
    ∀ (bs : List BusinessSummary) (rank : Nat),
      (renderBlocks remote today rank bs).length = bs.length := by
  intro bs
  induction bs with
  | nil => intro rank; rfl
  | cons b rest ih =>
    intro rank
    simp [renderBlocks, ih]

/-- The block of a business whose detail lookup fails is the degraded
rendering, at its position in the batch. -/
theorem renderBlocks_degraded (remote : YelpRemote) (today : Nat) :
    ∀ (bs : List BusinessSummary) (rank i : Nat) (b : BusinessSummary),
      bs[i]? = some b → remote.detail b.id = none →
      (renderBlocks remote today rank bs)[i]? = some (renderDegraded (rank + i) b) := by
  intro bs
  induction bs with
  | nil => intro rank i b hb; simp at hb
  | cons hd rest ih =>
    intro rank i b hb hfail
    cases i with
    | zero =>
      simp only [List.getElem?_cons_zero, Option.some.injEq] at hb
      subst hb
      simp [renderBlocks, renderBusiness, hfail]
    | succ j =>
      simp only [List.getElem?_cons_succ] at hb
      have := ih (rank + 1) j b hb hfail
      simpa [renderBlocks, Nat.add_assoc, Nat.add_comm 1 j] using this

/-- The conclusion of the C4 theorem: a successful search over
`businesses` returns all of them, renders one block per business (prefixed
by the header, never the batch-level error), and renders any business whose
detail lookup failed as the degraded, summary-fields-only block
(`renderDegraded` takes nothing but the rank and the summary record). -/
def DetailDegradationSpec (remote : YelpRemote) (today : Nat) (term zipcode : String)
    (businesses : List BusinessSummary) : Prop :=
  (yelp_search remote today term zipcode).1.2 = businesses ∧
  (yelp_search remote today term zipcode).1.1 =
    String.intercalate "\n"
      (resultsHeader term zipcode :: renderBlocks remote today 1 businesses) ∧
  (renderBlocks remote today 1 businesses).length = businesses.length ∧
  ∀ (i : Nat) (b : BusinessSummary),
    businesses[i]? = some b → remote.detail b.id = none →
    (renderBlocks remote today 1 businesses)[i]? = some (renderDegraded (1 + i) b)

/-- C4: in every search batch, a failed detail lookup degrades only that
business's block to the summary-fields-only rendering; all other
businesses are rendered normally, the whole batch is returned, and the
batch-level error path is not taken. -/
theorem detail_failure_degrades (remote : YelpRemote) (today : Nat) (term zipcode : String)
    (businesses : List BusinessSummary)
    (hzip : reMatchFiveDigits zipcode = true)
    (hok : remote.searchResult term zipcode = .ok businesses)
    (hne : businesses ≠ []) :
    DetailDegradationSpec remote today term zipcode businesses := by
  have hsearch :
      yelp_search remote today term zipcode =
        ((String.intercalate "\n"
            (resultsHeader term zipcode :: renderBlocks remote today 1 businesses),
          businesses),
         .searchQuery term zipcode :: businesses.map fun b => RemoteCall.businessQuery b.id) := by
    unfold yelp_search
    rw [hzip, hok]
    simp only [Bool.not_true, Bool.false_eq_true, if_false]
    rw [if_neg (by simp [List.isEmpty_iff, hne])]
  refine ⟨by rw [hsearch], by rw [hsearch], renderBlocks_length remote today businesses 1,
    fun i b hb hfail => renderBlocks_degraded remote today businesses 1 i b hb hfail⟩

/-- Concrete business whose detail lookup will fail. -/
def wAlpha : BusinessSummary :=
  { id := "alpha-id", name := "Alpha Movers", display_phone := some "(555) 111-2222",
    display_address := ["1 A St", "Springfield"], rating := "4.5", review_count := 12,
    url := some "https://www.yelp.com/biz/alpha-movers" }

/-- Concrete business whose detail lookup succeeds. -/
def wBeta : BusinessSummary :=
  { id := "beta-id", name := "Beta Movers", display_phone := none,
    display_address := ["2 B Ave"], rating := "4.0", review_count := 7,
    url := some "https://www.yelp.com/biz/beta-movers" }

/-- Concrete detail record for `wBeta`. -/
def wBetaDetail : BusinessDetail :=
  { price := some "$$",
    hours := [{ is_open_now := true,
                openSpans := [{ day := 0, start := "0900", stop := "1700" }] }],
    categories := some ["Movers", "Storage"],
    transactions := ["restaurant_reservation"],
    url := some "https://beta.example" }

/-- A Yelp oracle returning `[wAlpha, wBeta]` whose detail endpoint fails
for `wAlpha` and succeeds for `wBeta`. -/
def wRemote : YelpRemote :=
  { searchResult := fun _ _ => .ok [wAlpha, wBeta],
    detail := fun i => if i == "beta-id" then some wBetaDetail else none }

/-- Witness for `detail_failure_degrades`: a two-business batch in which
the first detail lookup fails. -/
theorem detail_failure_degrades_witness :
    DetailDegradationSpec wRemote 0 "movers" "94107" [wAlpha, wBeta] :=
  detail_failure_degrades wRemote 0 "movers" "94107" [wAlpha, wBeta]
    (by decide) rfl (by decide)

/-- The per-line rule as the claim states it, on the line's characters:
strip surrounding whitespace; keep only lines that then start with one or
more digits followed by a period; delete that digits-then-period prefix
and the whitespace after it; drop the line if nothing remains. -/
def claimKeepLineL (line : List Char) : Option (List Char) :=
  let t := pyStripL line
  let ds := t.takeWhile Char.isDigit
  if !ds.isEmpty && ((t.drop ds.length).head? == some '.') then
    let q := ((t.drop ds.length).tail).dropWhile Char.isWhitespace
    if q.isEmpty then none else some q
  else none

/-- The per-line rule of the claim, on strings. -/
def claimKeepLine (line : String) : Option String :=
  (claimKeepLineL line.toList).map String.mk

/-- The source's per-line step agrees with the claim's description. -/
theorem questionOfLine_claim (l : List Char) :
    questionOfLine l = claimKeepLineL l := by
  unfold questionOfLine claimKeepLineL
  dsimp only
  cases h1 : (pyStripL l).takeWhile Char.isDigit with
  | nil => rfl
  | cons a as =>
    cases h2 : (pyStripL l).drop (a :: as).length with
    | nil => rfl
    | cons c rest =>
      show (if c == '.' then
              if (rest.dropWhile Char.isWhitespace).isEmpty then none
              else some (rest.dropWhile Char.isWhitespace)
            else none) =
        if !false && (some c == some '.') then
          if (rest.dropWhile Char.isWhitespace).isEmpty then none
          else some (rest.dropWhile Char.isWhitespace)
        else none
      have hbeq : (!false && (some c == some '.')) = (c == '.') := by
        show (!false && (c == '.')) = (c == '.')
        rw [Bool.not_false, Bool.true_and]
      rw [hbeq]

/-- C6: question parsing keeps, for each response line, the line with its
digits-then-period prefix and surrounding whitespace stripped, dropping
non-numbered lines and lines that become empty — and on the concrete input
`"1. Foo?\n2.Bar?\nnot a question\n3.   \n"` it yields exactly
`["Foo?", "Bar?"]` in that order. -/
theorem question_parsing_behaviour :
    (∀ response : String,
        parseQuestions response =
          ((pySplitCh '\n' response.toList).map String.mk).filterMap claimKeepLine) ∧
    parseQuestions "1. Foo?\n2.Bar?\nnot a question\n3.   \n" = ["Foo?", "Bar?"] := by
  constructor
  · intro response
    rw [parseQuestions, List.filterMap_map]
    apply List.filterMap_congr
    intro l _
    exact congrArg (Option.map String.mk) (questionOfLine_claim l)
  · decide

/-- C7 (amended): without a stored session, `list` and `draft` reject with
the run-!get-first message and perform no remote calls.  The `message`
command, however, never consults the session store at all: with the API
key configured it rejects — with a run-!search-first message — exactly when
no bot message in the recent channel history contains its listing marker,
and that marker test, not the session, decides its behaviour.  (`messageCmd`
itself performs no Yelp or completion calls on any path.) -/
theorem session_gating_amended (remote : YelpRemote) (today : Nat) (ctx : UserCtx) (uid : Nat)
    (h : pyDictGet ctx uid = none) :
    listCmd remote today ctx uid = (.rejected runGetFirstMsg, []) ∧
    draftCmd remote today ctx uid = (.rejected runGetFirstMsg, []) ∧
    ∀ (hist : List ChanMsg) (num : String) (t : Option String),
      (hist.take 20).find?
          (fun m => m.fromBot && containsL topResultsMarkerB.toList m.content.toList) = none →
      messageCmd true hist num t = .searchFirst runSearchFirstMsg := by
  refine ⟨?_, ?_, ?_⟩
  · unfold listCmd
    rw [h]
  · unfold draftCmd
    rw [h]
  · intro hist num t hfind
    unfold messageCmd
    rw [hfind]
    rfl

/-- Witness for `session_gating_amended`: an empty session store and an
empty channel history. -/
theorem session_gating_amended_witness :
    listCmd trivialYelpRemote 0 [] 7 = (.rejected runGetFirstMsg, []) ∧
    draftCmd trivialYelpRemote 0 [] 7 = (.rejected runGetFirstMsg, []) ∧
    messageCmd true [] "1" none = .searchFirst runSearchFirstMsg := by
  obtain ⟨h1, h2, h3⟩ := session_gating_amended trivialYelpRemote 0 [] 7 rfl
  exact ⟨h1, h2, h3 [] "1" none rfl⟩

/-- A bot channel message that happens to contain the literal (mojibake)
marker characters of `bot.py` line 295, a rank line and a (mojibake) link
line. -/
def mojibakeListing : String :=
  topResultsMarkerB ++ " x:\n[1] Joes Pizza\n" ++ linkMarkerB
    ++ "https://www.yelp.com/biz/joes-pizza?osq=x"

set_option maxRecDepth 4000 in
/-- C7, counterexample to the claim as stated: a user with no stored
session (`pyDictGet [] 7 = none`) invokes `message` in a channel whose
history contains a bot message with the listing marker; the command does
not produce any "run !get first" rejection — it proceeds to emit messaging
instructions, because it never reads the session store. -/
theorem message_ignores_session_counterexample :
    pyDictGet ([] : UserCtx) 7 = none ∧
    messageCmd true [{ fromBot := true, content := mojibakeListing }] "1" none =
      .instructions "Joes Pizza" "https://www.yelp.com/biz/joes-pizza?osq=x"
        "https://www.yelp.com/message_the_business/joes-pizza" defaultOutreachMsg := by
  exact ⟨rfl, by decide⟩
